import Mathlib

/-!
Verification development for the actor behavior and animation synchronization
layer of kero3d (source: src/kero_bevy/src/lib.rs).

Modelling conventions:
* f32 values are embedded as exact rationals.
* `Vec3::distance a b < r` comparisons are embedded square-free as
  `Vec3.distSq a b < r ^ 2`, which is equivalent because both the distance and
  the thresholds are nonnegative.
* The bevy `AnimationPlayer` collaborator is modelled by its set of active
  animations: `play` inserts the clip when absent (bevy keeps an existing
  entry), `is_playing_animation` is membership, and the `all_finished` query
  is supplied per tick as an environment input since clip progression happens
  outside this code.
* Quaternion yaw math, slerp, f32 sqrt and sin are external collaborators: the
  model carries their results as oracle inputs (a forward vector, a normalized
  direction, sine samples) constrained in the theorems where needed.
-/

namespace Kero

/-- 3D vector with exact rational components (models bevy `Vec3`). -/
structure Vec3 where
  x : ℚ
  y : ℚ
  z : ℚ
deriving DecidableEq, Repr

instance : Add Vec3 :=
  ⟨fun a b => ⟨a.x + b.x, a.y + b.y, a.z + b.z⟩⟩

instance : Sub Vec3 :=
  ⟨fun a b => ⟨a.x - b.x, a.y - b.y, a.z - b.z⟩⟩

/-- Componentwise scalar multiple. -/
def Vec3.scale (v : Vec3) (c : ℚ) : Vec3 :=
  ⟨v.x * c, v.y * c, v.z * c⟩

@[simp] theorem Vec3.add_x (a b : Vec3) : (a + b).x = a.x + b.x := rfl

@[simp] theorem Vec3.add_y (a b : Vec3) : (a + b).y = a.y + b.y := rfl

@[simp] theorem Vec3.add_z (a b : Vec3) : (a + b).z = a.z + b.z := rfl

@[simp] theorem Vec3.sub_x (a b : Vec3) : (a - b).x = a.x - b.x := rfl

@[simp] theorem Vec3.sub_y (a b : Vec3) : (a - b).y = a.y - b.y := rfl

@[simp] theorem Vec3.sub_z (a b : Vec3) : (a - b).z = a.z - b.z := rfl

@[simp] theorem Vec3.scale_x (v : Vec3) (c : ℚ) : (v.scale c).x = v.x * c := rfl

@[simp] theorem Vec3.scale_y (v : Vec3) (c : ℚ) : (v.scale c).y = v.y * c := rfl

@[simp] theorem Vec3.scale_z (v : Vec3) (c : ℚ) : (v.scale c).z = v.z * c := rfl

/-- Squared length, models `Vec3::length_squared`. -/
def Vec3.lengthSq (v : Vec3) : ℚ :=
  v.x ^ 2 + v.y ^ 2 + v.z ^ 2

/-- Squared distance; `a.distance(b) < r` is embedded as `distSq a b < r ^ 2`. -/
def Vec3.distSq (a b : Vec3) : ℚ :=
  (a - b).lengthSq

/-- `u` is the value of `v.normalize()`: a positive multiple of `v` of
(squared) length one.  f32 sqrt is external, so the model receives the
normalized vector as an oracle constrained by this predicate. -/
def IsNormalized (v u : Vec3) : Prop :=
  (∃ c : ℚ, 0 < c ∧ u = v.scale c) ∧ u.lengthSq = 1

/-- The `PlayerState` enum shared by the `Player` and `Enemy` components. -/
inductive PlayerState
  | Idle
  | Running
  | Jumping
  | Punching
deriving DecidableEq, Repr

/-- The four animation clips registered in the `Animations` resource. -/
inductive ClipId
  | idle
  | run
  | punch
  | jump
deriving DecidableEq, Repr

/-- A play request issued to a bound animation player: the clip, whether
`.repeat()` was chained, and the `.set_speed` value. -/
structure PlayRequest where
  clip : ClipId
  looped : Bool
  speed : ℚ
deriving DecidableEq, Repr

/-- Model of the bevy `AnimationPlayer` collaborator: its set of active
animations. -/
structure AnimPlayer where
  playing : List ClipId
deriving DecidableEq, Repr

/-- `is_playing_animation`: membership in the active set. -/
def AnimPlayer.isPlaying (a : AnimPlayer) (c : ClipId) : Bool :=
  decide (c ∈ a.playing)

/-- `play`: insert the clip when absent; an already active clip is kept. -/
def AnimPlayer.play (a : AnimPlayer) (c : ClipId) : AnimPlayer :=
  if c ∈ a.playing then a else ⟨c :: a.playing⟩

/-- The `MobileInput` resource and, equally, the contents of the
`MOBILE_INPUT_STATE` cell. -/
structure MobileInput where
  joystickX : ℚ
  joystickY : ℚ
  jump : Bool
  punch : Bool
deriving DecidableEq, Repr

/-- The all-zero / all-false mobile input (the `Default` derive). -/
def MobileInput.zero : MobileInput :=
  ⟨0, 0, false, false⟩

/-- `sync_mobile_input`: when the lock on the global cell is acquired
(`lockResult = some s`) the resource is overwritten with the cell contents;
on lock failure the `if let` body is skipped, so the resource keeps the value
it had on the previous tick. -/
def syncMobileInput (lockResult : Option MobileInput) (input : MobileInput) :
    MobileInput :=
  match lockResult with
  | some s => s
  | none => input

/-- Keyboard state read by `player_movement` plus the synced `MobileInput`
resource. -/
structure InputSources where
  keyW : Bool
  keyS : Bool
  keyA : Bool
  keyD : Bool
  spaceJustPressed : Bool
  enterJustPressed : Bool
  mobile : MobileInput
deriving DecidableEq, Repr

/-- The per-tick input intent as computed at the top of `player_movement`:
a direction vector (y is always zero, so only x and z are kept) and the jump
and punch flags. -/
structure InputIntent where
  dirX : ℚ
  dirZ : ℚ
  jump : Bool
  punch : Bool
deriving DecidableEq, Repr

/-- Input aggregation of `player_movement` (lines 371-386): WASD contributes
unit steps, the joystick axes are added when either axis is nonzero, and
jump/punch are just-pressed keys or-ed with the mobile latches. -/
def inputIntent (i : InputSources) : InputIntent :=
  let x0 : ℚ := (if i.keyA then -1 else 0) + (if i.keyD then 1 else 0)
  let z0 : ℚ := (if i.keyW then -1 else 0) + (if i.keyS then 1 else 0)
  let useJoy : Bool := decide (i.mobile.joystickX ≠ 0) || decide (i.mobile.joystickY ≠ 0)
  { dirX := if useJoy then x0 + i.mobile.joystickX else x0
    dirZ := if useJoy then z0 + i.mobile.joystickY else z0
    jump := i.spaceJustPressed || i.mobile.jump
    punch := i.enterJustPressed || i.mobile.punch }

/-- The `Idle | Running` arm of the state machine in `player_movement`
(lines 390-406): punch intent wins, then jump intent, then movement, then
Idle.  The returned flag records whether the one-shot punch sound spawn was
requested. -/
def playerDecision (inp : InputIntent) : PlayerState × Bool :=
  if inp.punch then (PlayerState.Punching, true)
  else if inp.jump then (PlayerState.Jumping, false)
  else if inp.dirX ^ 2 + inp.dirZ ^ 2 > 0 then (PlayerState.Running, false)
  else (PlayerState.Idle, false)

/-- The whole `match player.state` state-machine arm (lines 389-414): the
decision table applies from Idle or Running; Jumping and Punching do nothing
here. -/
def playerStateArm (inp : InputIntent) (st : PlayerState) : PlayerState × Bool :=
  match st with
  | PlayerState.Idle => playerDecision inp
  | PlayerState.Running => playerDecision inp
  | PlayerState.Jumping => (PlayerState.Jumping, false)
  | PlayerState.Punching => (PlayerState.Punching, false)

/-- The clip associated to each state on the player side (run / idle / punch /
jump branches of the animation arm). -/
def playerClipOf : PlayerState → ClipId
  | PlayerState.Idle => ClipId.idle
  | PlayerState.Running => ClipId.run
  | PlayerState.Jumping => ClipId.jump
  | PlayerState.Punching => ClipId.punch

/-- The animation-application arm of `player_movement` (lines 437-462), for a
bound animation player whose lock succeeded: returns the possibly updated
state (the finished-clip exit for Punching and Jumping lives here), the
updated animation player, and the request issued, if any.  `finished` is the
`all_finished()` report of this tick. -/
def playerAnimApply (st : PlayerState) (a : AnimPlayer) (finished : Bool) :
    PlayerState × AnimPlayer × Option PlayRequest :=
  match st with
  | PlayerState.Running =>
      if a.isPlaying ClipId.run then (PlayerState.Running, a, none)
      else (PlayerState.Running, a.play ClipId.run, some ⟨ClipId.run, true, 1.5⟩)
  | PlayerState.Idle =>
      if a.isPlaying ClipId.idle then (PlayerState.Idle, a, none)
      else (PlayerState.Idle, a.play ClipId.idle, some ⟨ClipId.idle, true, 1⟩)
  | PlayerState.Punching =>
      if a.isPlaying ClipId.punch then
        (if finished then PlayerState.Idle else PlayerState.Punching, a, none)
      else (PlayerState.Punching, a.play ClipId.punch, some ⟨ClipId.punch, false, 1⟩)
  | PlayerState.Jumping =>
      if a.isPlaying ClipId.jump then
        (if finished then PlayerState.Idle else PlayerState.Jumping, a, none)
      else (PlayerState.Jumping, a.play ClipId.jump, some ⟨ClipId.jump, false, 1⟩)

/-- The pieces of the player entity that `player_movement` reads and writes.
`fwd` is the value of `transform.forward()` at the translation step, that is
after the yaw update of the same tick (quaternion yaw itself is external math
and no claim mentions rotation output).  `anim` is the bound animation player
when `animation_entity` is `Some` and the query on it succeeds, else `none`.
`finished` is the `all_finished()` report of this tick. -/
structure PlayerSim where
  pos : Vec3
  fwd : Vec3
  speed : ℚ
  state : PlayerState
  anim : Option AnimPlayer
  finished : Bool
deriving DecidableEq, Repr

/-- Observable result of one `player_movement` tick for one player. -/
structure PlayerOut where
  pos : Vec3
  state : PlayerState
  anim : Option AnimPlayer
  sound : Bool
  req : Option PlayRequest
deriving DecidableEq, Repr

/-- One `player_movement` tick: input aggregation, the state-machine arm,
forward translation (skipped while Punching, and when the forward input is
zero), then the animation-application arm (skipped when no animation player
is bound). -/
def playerTick (i : InputSources) (dt : ℚ) (w : PlayerSim) : PlayerOut :=
  let inp := inputIntent i
  let d := playerStateArm inp w.state
  let st1 := d.1
  let moveInput := -inp.dirZ
  let pos1 :=
    if st1 ≠ PlayerState.Punching then
      if |moveInput| > 0 then w.pos + w.fwd.scale (moveInput * w.speed * dt)
      else w.pos
    else w.pos
  match w.anim with
  | none => ⟨pos1, st1, none, d.2, none⟩
  | some a =>
      let r := playerAnimApply st1 a w.finished
      ⟨pos1, r.1, some r.2.1, d.2, r.2.2⟩

/-- `chase_range` constant of `enemy_behavior`. -/
def chase_range : ℚ := 15.0

/-- `attack_range` constant of `enemy_behavior`. -/
def attack_range : ℚ := 1.5

/-- The state-transition arm of `enemy_behavior` (lines 296-312).  While
Punching, the state leaves only when the animation-entity lookup chain
succeeds and reports `all_finished`; otherwise the distance rules apply.
`dSq` is the squared 3D distance to the player. -/
def enemyTransition (st : PlayerState) (anim : Option AnimPlayer)
    (finished : Bool) (dSq : ℚ) : PlayerState :=
  if st = PlayerState.Punching then
    match anim with
    | some _ => if finished then PlayerState.Idle else PlayerState.Punching
    | none => PlayerState.Punching
  else
    if dSq < attack_range ^ 2 then PlayerState.Punching
    else if dSq < chase_range ^ 2 then PlayerState.Running
    else PlayerState.Idle

/-- Variant of the transition arm following the words of the specification
("planar (horizontal-only) Euclidean distance"), kept only to compare with
`enemyTransition`: identical priority structure, but the y difference is
excluded from the compared distance. -/
def enemyTransitionPlanarSpec (st : PlayerState) (anim : Option AnimPlayer)
    (finished : Bool) (pos target : Vec3) : PlayerState :=
  let dSq := (pos.x - target.x) ^ 2 + (pos.z - target.z) ^ 2
  if st = PlayerState.Punching then
    match anim with
    | some _ => if finished then PlayerState.Idle else PlayerState.Punching
    | none => PlayerState.Punching
  else
    if dSq < attack_range ^ 2 then PlayerState.Punching
    else if dSq < chase_range ^ 2 then PlayerState.Running
    else PlayerState.Idle

/-- The clip associated to each state on the enemy side: the Jumping branch
plays the idle clip (the enemy has no jump clip). -/
def enemyClipOf : PlayerState → ClipId
  | PlayerState.Idle => ClipId.idle
  | PlayerState.Running => ClipId.run
  | PlayerState.Jumping => ClipId.idle
  | PlayerState.Punching => ClipId.punch

/-- The animation arm of `enemy_behavior` (lines 331-356): same idempotent
pattern as the player arm but with no finished-clip exit here, and the
Jumping branch plays the looped idle clip. -/
def enemyAnimApply (st : PlayerState) (a : AnimPlayer) :
    AnimPlayer × Option PlayRequest :=
  match st with
  | PlayerState.Running =>
      if a.isPlaying ClipId.run then (a, none)
      else (a.play ClipId.run, some ⟨ClipId.run, true, 1.5⟩)
  | PlayerState.Idle =>
      if a.isPlaying ClipId.idle then (a, none)
      else (a.play ClipId.idle, some ⟨ClipId.idle, true, 1⟩)
  | PlayerState.Punching =>
      if a.isPlaying ClipId.punch then (a, none)
      else (a.play ClipId.punch, some ⟨ClipId.punch, false, 1⟩)
  | PlayerState.Jumping =>
      if a.isPlaying ClipId.idle then (a, none)
      else (a.play ClipId.idle, some ⟨ClipId.idle, true, 1⟩)

/-- Iteration of the enemy state-transition arm over consecutive ticks; each
tick supplies the finished report and the squared distance of that tick. -/
def iterEnemyTransition (anim : Option AnimPlayer) :
    PlayerState → List (Bool × ℚ) → PlayerState
  | st, [] => st
  | st, t :: rest =>
      iterEnemyTransition anim (enemyTransition st anim t.1 t.2) rest

/-- Iteration of the player animation arm over consecutive ticks, threading
the animation player, with one `all_finished` report per tick; also counts
the play requests issued along the way. -/
def runPlayerAnim (st : PlayerState) (a : AnimPlayer) :
    List Bool → PlayerState × AnimPlayer × Nat
  | [] => (st, a, 0)
  | f :: fs =>
      let r := playerAnimApply st a f
      let rest := runPlayerAnim r.1 r.2.1 fs
      (rest.1, rest.2.1, (if r.2.2.isSome then 1 else 0) + rest.2.2)

/-- Iteration of the enemy animation arm over `n` consecutive ticks in a
fixed state, counting the play requests issued. -/
def runEnemyAnim (st : PlayerState) (a : AnimPlayer) : Nat → AnimPlayer × Nat
  | 0 => (a, 0)
  | n + 1 =>
      let r := enemyAnimApply st a
      let rest := runEnemyAnim st r.1 n
      (rest.1, (if r.2.isSome then 1 else 0) + rest.2)

/-- Horizontal vector toward the target: the difference with its y component
zeroed, as in the seek logic (`direction.y = 0.0`). -/
def horizTo (pos target : Vec3) : Vec3 :=
  ⟨target.x - pos.x, 0, target.z - pos.z⟩

/-- The pieces of the enemy entity that `enemy_behavior` reads and writes. -/
structure EnemySim where
  pos : Vec3
  speed : ℚ
  state : PlayerState
  anim : Option AnimPlayer
  finished : Bool
deriving DecidableEq, Repr

/-- Observable result of one `enemy_behavior` tick for one enemy. -/
structure EnemyOut where
  pos : Vec3
  state : PlayerState
  anim : Option AnimPlayer
  req : Option PlayRequest
deriving DecidableEq, Repr

/-- One `enemy_behavior` tick.  `playerQ = none` models `get_single()`
failing (no single player): the system returns early and nothing changes.
`nrm` is the oracle value of `direction.normalize()` for the horizontal
direction (constrained by `IsNormalized` in the theorems).  Slerp heading
smoothing only touches rotation and is not modelled; no claim mentions it. -/
def enemyTick (dt : ℚ) (playerQ : Option Vec3) (nrm : Vec3) (w : EnemySim) :
    EnemyOut :=
  match playerQ with
  | none => ⟨w.pos, w.state, w.anim, none⟩
  | some p =>
      let dSq := Vec3.distSq w.pos p
      let st1 := enemyTransition w.state w.anim w.finished dSq
      let dirH := horizTo w.pos p
      let pos1 :=
        if st1 = PlayerState.Running then
          if dirH.lengthSq > 0 then w.pos + nrm.scale (w.speed * dt)
          else w.pos
        else w.pos
      match w.anim with
      | none => ⟨pos1, st1, none, none⟩
      | some a =>
          let r := enemyAnimApply st1 a
          ⟨pos1, st1, some r.1, r.2⟩

/-- The ancestor walk of `link_animations`: step to the parent while one
exists and return the first ancestor carrying an actor component.  `fuel`
bounds the walk; the entity hierarchy is a finite forest, so any fuel at
least its depth makes the walk exact. -/
def findActorAncestor (parent : Nat → Option Nat) (isActor : Nat → Bool) :
    Nat → Nat → Option Nat
  | 0, _ => none
  | fuel + 1, e =>
      match parent e with
      | none => none
      | some p =>
          if isActor p then some p
          else findActorAncestor parent isActor fuel p

/-- One `link_animations` tick: for each newly added animation-player entity,
walk to the nearest actor ancestor and set the `animation_entity` of that
actor to `Some entity` — an unconditional assignment.  `bound` maps an actor
entity to its currently bound animation entity.  (The graph-handle insertion
on the added entity is not modelled; no claim mentions it.) -/
def linkTick (parent : Nat → Option Nat) (isActor : Nat → Bool) (fuel : Nat)
    (added : List Nat) (bound : Nat → Option Nat) : Nat → Option Nat :=
  added.foldl
    (fun b e =>
      match findActorAncestor parent isActor fuel e with
      | some actor => fun q => if q = actor then some e else b q
      | none => b)
    bound

/-- The two hand rig fragments of `animate_fps_hands`. -/
inductive HandSide
  | Left
  | Right
deriving DecidableEq, Repr

/-- The sine samples consumed by `animate_fps_hands` at elapsed time `t`:
`s2 = sin (t * 2)`, `s10 = sin (t * 10)`, `s10pi = sin (t * 10 + pi)`,
`s20 = sin (t * 20)`.  f32 sine is external math, so the model receives the
four call-site values exactly. -/
structure SinSamples where
  s2 : ℚ
  s10 : ℚ
  s10pi : ℚ
  s20 : ℚ
deriving DecidableEq, Repr

/-- Target-offset computation of `animate_fps_hands` (lines 482-510): the
Running branch bobs vertically and alternates laterally, the Punching branch
pushes the Right hand forward, and the catch-all arm — reached by Idle and by
Jumping — adds the idle breathing term.  The subsequent lerp toward the
target only smooths the transform and is not part of the target offset. -/
def handTarget (st : PlayerState) (side : HandSide) (orig : Vec3)
    (sv : SinSamples) : Vec3 :=
  match st with
  | PlayerState.Running =>
      let offs := match side with
        | HandSide.Left => sv.s10
        | HandSide.Right => sv.s10pi
      ⟨orig.x, orig.y + sv.s10 * 0.05, orig.z + offs * 0.05⟩
  | PlayerState.Punching =>
      match side with
      | HandSide.Right => ⟨orig.x, orig.y, orig.z - |sv.s20| * 0.3⟩
      | HandSide.Left => orig
  | _ => ⟨orig.x, orig.y + sv.s2 * 0.01, orig.z⟩

/-- Example entity hierarchy for the binder claims: entity 0 carries an actor
component, entities 1 and 2 are its direct children. -/
def parentEx : Nat → Option Nat :=
  fun e => if e = 1 ∨ e = 2 then some 0 else none

/-- Actor predicate of the example hierarchy. -/
def isActorEx : Nat → Bool :=
  fun e => decide (e = 0)

/-! ## Basic lemmas about the model pieces -/

theorem AnimPlayer.isPlaying_play_self (a : AnimPlayer) (c : ClipId) :
    (a.play c).isPlaying c = true := by
  unfold AnimPlayer.play AnimPlayer.isPlaying
  by_cases h : c ∈ a.playing
  · simp [h]
  · simp [h, List.mem_cons]

theorem Vec3.lengthSq_scale (v : Vec3) (c : ℚ) :
    (v.scale c).lengthSq = c ^ 2 * v.lengthSq := by
  unfold Vec3.lengthSq Vec3.scale
  ring

theorem Vec3.lengthSq_nonneg (v : Vec3) : 0 ≤ v.lengthSq := by
  unfold Vec3.lengthSq
  positivity

theorem Vec3.add_sub_cancel_left (a v : Vec3) : (a + v) - a = v := by
  cases a
  cases v
  show Vec3.mk _ _ _ = Vec3.mk _ _ _
  rw [Vec3.mk.injEq]
  refine ⟨?_, ?_, ?_⟩
  · rw [Vec3.add_x]; ring
  · rw [Vec3.add_y]; ring
  · rw [Vec3.add_z]; ring

theorem enemyTransition_punching (anim : Option AnimPlayer) (f : Bool) (dSq : ℚ) :
    enemyTransition PlayerState.Punching anim f dSq
      = (match anim with
         | some _ => if f then PlayerState.Idle else PlayerState.Punching
         | none => PlayerState.Punching) := by
  unfold enemyTransition
  rw [if_pos rfl]

theorem enemyTransition_not_punching (st : PlayerState) (anim : Option AnimPlayer)
    (f : Bool) (dSq : ℚ) (h : st ≠ PlayerState.Punching) :
    enemyTransition st anim f dSq
      = (if dSq < attack_range ^ 2 then PlayerState.Punching
         else if dSq < chase_range ^ 2 then PlayerState.Running
         else PlayerState.Idle) := by
  unfold enemyTransition
  rw [if_neg h]

theorem playerStateArm_punching (inp : InputIntent) :
    playerStateArm inp PlayerState.Punching = (PlayerState.Punching, false) := rfl

theorem playerStateArm_jumping (inp : InputIntent) :
    playerStateArm inp PlayerState.Jumping = (PlayerState.Jumping, false) := rfl

theorem playerStateArm_idle (inp : InputIntent) :
    playerStateArm inp PlayerState.Idle = playerDecision inp := rfl

theorem playerStateArm_running (inp : InputIntent) :
    playerStateArm inp PlayerState.Running = playerDecision inp := rfl

theorem playerDecision_punch (inp : InputIntent) (h : inp.punch = true) :
    playerDecision inp = (PlayerState.Punching, true) := by
  simp [playerDecision, h]

theorem playerDecision_jump (inp : InputIntent) (h1 : inp.punch = false)
    (h2 : inp.jump = true) :
    playerDecision inp = (PlayerState.Jumping, false) := by
  simp [playerDecision, h1, h2]

theorem playerDecision_moving (inp : InputIntent) (h1 : inp.punch = false)
    (h2 : inp.jump = false) (h3 : inp.dirX ^ 2 + inp.dirZ ^ 2 > 0) :
    playerDecision inp = (PlayerState.Running, false) := by
  simp [playerDecision, h1, h2, h3]

theorem playerDecision_still (inp : InputIntent) (h1 : inp.punch = false)
    (h2 : inp.jump = false) (h3 : ¬ inp.dirX ^ 2 + inp.dirZ ^ 2 > 0) :
    playerDecision inp = (PlayerState.Idle, false) := by
  simp [playerDecision, h1, h2, h3]

theorem playerAnimApply_playing (st : PlayerState) (a : AnimPlayer) (f : Bool)
    (h : a.isPlaying (playerClipOf st) = true) :
    (playerAnimApply st a f).2.1 = a ∧ (playerAnimApply st a f).2.2 = none := by
  cases st <;> simp [playerClipOf] at h <;> simp [playerAnimApply, h]

theorem playerAnimApply_not_playing (st : PlayerState) (a : AnimPlayer) (f : Bool)
    (h : a.isPlaying (playerClipOf st) = false) :
    (playerAnimApply st a f).1 = st ∧
    (playerAnimApply st a f).2.1 = a.play (playerClipOf st) ∧
    (playerAnimApply st a f).2.2.isSome = true := by
  cases st <;> simp [playerClipOf] at h ⊢ <;> simp [playerAnimApply, h]

theorem playerAnimApply_state_or_idle (st : PlayerState) (a : AnimPlayer)
    (f : Bool) :
    (playerAnimApply st a f).1 = st ∨
    (playerAnimApply st a f).1 = PlayerState.Idle := by
  cases st with
  | Idle => right; cases hb : a.isPlaying ClipId.idle <;> simp [playerAnimApply, hb]
  | Running => left; cases hb : a.isPlaying ClipId.run <;> simp [playerAnimApply, hb]
  | Punching =>
      cases hb : a.isPlaying ClipId.punch with
      | false => left; simp [playerAnimApply, hb]
      | true =>
          cases f
          · left; simp [playerAnimApply, hb]
          · right; simp [playerAnimApply, hb]
  | Jumping =>
      cases hb : a.isPlaying ClipId.jump with
      | false => left; simp [playerAnimApply, hb]
      | true =>
          cases f
          · left; simp [playerAnimApply, hb]
          · right; simp [playerAnimApply, hb]

theorem playerAnimApply_exit_iff (st : PlayerState) (a : AnimPlayer) (f : Bool)
    (h : st = PlayerState.Punching ∨ st = PlayerState.Jumping) :
    ((playerAnimApply st a f).1 = PlayerState.Idle ↔
      a.isPlaying (playerClipOf st) = true ∧ f = true) := by
  rcases h with h | h <;> subst h
  · cases hb : a.isPlaying ClipId.punch <;> cases f <;>
      simp [playerAnimApply, playerClipOf, hb]
  · cases hb : a.isPlaying ClipId.jump <;> cases f <;>
      simp [playerAnimApply, playerClipOf, hb]

theorem playerAnimApply_idle_state (a : AnimPlayer) (f : Bool) :
    (playerAnimApply PlayerState.Idle a f).1 = PlayerState.Idle := by
  cases hb : a.isPlaying ClipId.idle <;> simp [playerAnimApply, hb]

theorem playerAnimApply_running_state (a : AnimPlayer) (f : Bool) :
    (playerAnimApply PlayerState.Running a f).1 = PlayerState.Running := by
  cases hb : a.isPlaying ClipId.run <;> simp [playerAnimApply, hb]

theorem playerTick_anim_none (i : InputSources) (dt : ℚ) (w : PlayerSim)
    (h : w.anim = none) :
    (playerTick i dt w).state = (playerStateArm (inputIntent i) w.state).1 ∧
    (playerTick i dt w).anim = none ∧
    (playerTick i dt w).req = none := by
  simp [playerTick, h]

theorem playerTick_anim_some (i : InputSources) (dt : ℚ) (w : PlayerSim)
    (a : AnimPlayer) (h : w.anim = some a) :
    (playerTick i dt w).state
      = (playerAnimApply (playerStateArm (inputIntent i) w.state).1 a w.finished).1 ∧
    (playerTick i dt w).anim
      = some (playerAnimApply (playerStateArm (inputIntent i) w.state).1 a w.finished).2.1 ∧
    (playerTick i dt w).req
      = (playerAnimApply (playerStateArm (inputIntent i) w.state).1 a w.finished).2.2 := by
  simp [playerTick, h]

theorem playerTick_pos (i : InputSources) (dt : ℚ) (w : PlayerSim) :
    (playerTick i dt w).pos
      = (if (playerStateArm (inputIntent i) w.state).1 ≠ PlayerState.Punching then
           if |(-(inputIntent i).dirZ)| > 0 then
             w.pos + w.fwd.scale (-(inputIntent i).dirZ * w.speed * dt)
           else w.pos
         else w.pos) := by
  cases h : w.anim <;> simp only [playerTick, h]

theorem playerTick_sound (i : InputSources) (dt : ℚ) (w : PlayerSim) :
    (playerTick i dt w).sound = (playerStateArm (inputIntent i) w.state).2 := by
  cases h : w.anim <;> simp only [playerTick, h]

/-! ## Claims -/

/-- C4, counterexample: enemy at the origin, player at `(1, 20, 0)`.  The
planar distance is 1 (inside attack range, so the claim as stated predicts
Punching), but the code compares the full 3D distance `sqrt 401` (outside
chase range) and yields Idle: the vertical difference does affect the
comparison. -/
theorem c4_planar_distance_cex :
    enemyTransition PlayerState.Idle none false
        (Vec3.distSq ⟨0, 0, 0⟩ ⟨1, 20, 0⟩) = PlayerState.Idle ∧
    enemyTransitionPlanarSpec PlayerState.Idle none false
        ⟨0, 0, 0⟩ ⟨1, 20, 0⟩ = PlayerState.Punching ∧
    PlayerState.Idle ≠ PlayerState.Punching := by
  refine ⟨?_, ?_, by decide⟩
  · rw [enemyTransition_not_punching _ _ _ _ (by decide)]
    norm_num [attack_range, chase_range, Vec3.distSq, Vec3.lengthSq]
  · norm_num [enemyTransitionPlanarSpec, attack_range]

/-- C4, amended: the distance the enemy AI compares against the ranges is the
full 3D Euclidean distance to the player, so the vertical axis difference does
participate: the squared compared distance expands to all three axis
differences, and moving the player from `(1, 0, 0)` to `(1, 20, 0)` flips the
decision from Punching to Idle. -/
theorem c4_full_3d_distance :
    (∀ pos p : Vec3, Vec3.distSq pos p
        = (p.x - pos.x) ^ 2 + (p.y - pos.y) ^ 2 + (p.z - pos.z) ^ 2) ∧
    enemyTransition PlayerState.Idle none false
        (Vec3.distSq ⟨0, 0, 0⟩ ⟨1, 0, 0⟩) = PlayerState.Punching ∧
    enemyTransition PlayerState.Idle none false
        (Vec3.distSq ⟨0, 0, 0⟩ ⟨1, 20, 0⟩) = PlayerState.Idle := by
  refine ⟨fun pos p => ?_, ?_, ?_⟩
  · unfold Vec3.distSq Vec3.lengthSq
    simp
    ring
  · rw [enemyTransition_not_punching _ _ _ _ (by decide)]
    norm_num [attack_range, chase_range, Vec3.distSq, Vec3.lengthSq]
  · rw [enemyTransition_not_punching _ _ _ _ (by decide)]
    norm_num [attack_range, chase_range, Vec3.distSq, Vec3.lengthSq]

/-- C8, counterexample: the previous tick synchronized
`{joystickY := 1, jump := true}`; this tick the lock is not acquired.  The
claim predicts a zero-axes / false-buttons contribution, but the resource
keeps the stale values, and the aggregated intent still reports a jump and a
nonzero forward axis. -/
theorem c8_lock_failure_cex :
    syncMobileInput none ⟨0, 1, true, false⟩ = ⟨0, 1, true, false⟩ ∧
    syncMobileInput none ⟨0, 1, true, false⟩ ≠ MobileInput.zero ∧
    (inputIntent ⟨false, false, false, false, false, false,
        syncMobileInput none ⟨0, 1, true, false⟩⟩).jump = true ∧
    (inputIntent ⟨false, false, false, false, false, false,
        syncMobileInput none ⟨0, 1, true, false⟩⟩).dirZ = 1 := by
  refine ⟨rfl, ?_, ?_, ?_⟩
  · intro h
    rw [syncMobileInput, MobileInput.zero, MobileInput.mk.injEq] at h
    norm_num at h
  · rfl
  · norm_num [inputIntent, syncMobileInput]

/-- C8, amended: on a failed lock acquisition `sync_mobile_input` skips the
copy, so the `MobileInput` resource keeps the values synchronized on an
earlier tick (stale reuse, no error propagated); the external contribution is
therefore absent only when the previously synchronized value was already
zero.  On success the resource is overwritten with the cell contents. -/
theorem c8_lock_failure_keeps_previous :
    (∀ prev, syncMobileInput none prev = prev) ∧
    (∀ s prev, syncMobileInput (some s) prev = s) := by
  exact ⟨fun _ => rfl, fun _ _ => rfl⟩

/-- C10, counterexample: player Jumping, sine sample `sin (t * 2) = 1`
(e.g. at `t = pi / 4`), rest pose at the origin.  The claim predicts the rest
pose exactly, but the catch-all arm of `animate_fps_hands` adds the idle
breathing term `0.01` to the vertical offset while Jumping. -/
theorem c10_jumping_breathing_cex :
    handTarget PlayerState.Jumping HandSide.Left ⟨0, 0, 0⟩ ⟨1, 0, 0, 0⟩
      = ⟨0, 0.01, 0⟩ ∧
    (⟨0, 0.01, 0⟩ : Vec3) ≠ (⟨0, 0, 0⟩ : Vec3) := by
  refine ⟨by norm_num [handTarget], ?_⟩
  intro h
  rw [Vec3.mk.injEq] at h
  norm_num at h

/-- C10, amended: while Jumping the hand target is the rest pose plus the
idle breathing vertical term `sin (t * 2) * 0.01` — Jumping falls into the
same catch-all arm as Idle, so the breathing term applies to both states and
no Running or Punching offset is applied. -/
theorem c10_jumping_gets_breathing :
    ∀ (side : HandSide) (orig : Vec3) (sv : SinSamples),
      handTarget PlayerState.Jumping side orig sv
        = ⟨orig.x, orig.y + sv.s2 * 0.01, orig.z⟩ ∧
      handTarget PlayerState.Jumping side orig sv
        = handTarget PlayerState.Idle side orig sv := by
  exact fun side orig sv => ⟨rfl, rfl⟩

/-- C2, counterexample: actor 0 has children 1 and 2.  The animation player
of entity 1 is discovered on the first tick and bound; when entity 2 is
discovered on a later tick the binder assigns again, so `animation_target`
is reassigned from `some 1` to `some 2`, contradicting the at-most-once
claim. -/
theorem c2_rebinding_cex :
    linkTick parentEx isActorEx 4 [1] (fun _ => none) 0 = some 1 ∧
    linkTick parentEx isActorEx 4 [2]
        (linkTick parentEx isActorEx 4 [1] (fun _ => none)) 0 = some 2 ∧
    (some 2 : Option Nat) ≠ some 1 := by
  refine ⟨?_, ?_, by decide⟩ <;> decide

theorem findActorAncestor_isActor (parent : Nat → Option Nat)
    (isActor : Nat → Bool) :
    ∀ fuel e actor, findActorAncestor parent isActor fuel e = some actor →
      isActor actor = true := by
  intro fuel
  induction fuel with
  | zero =>
      intro e actor h
      exact absurd h (by simp [findActorAncestor])
  | succ n ih =>
      intro e actor h
      unfold findActorAncestor at h
      cases hp : parent e with
      | none => simp only [hp] at h; exact absurd h (by simp)
      | some p =>
          simp only [hp] at h
          by_cases ha : isActor p
          · rw [if_pos ha] at h
            cases h
            exact ha
          · rw [if_neg ha] at h
            exact ih p actor h

/-- C2, amended: the binder always binds the nearest actor-carrying ancestor
(the walk checks the immediate parent first and recurses outward only when it
does not carry an actor), but the assignment is unconditional: whenever a
matching descendant animation player is discovered, `animation_target` is set
to it, overwriting any earlier binding — the last discovered descendant wins,
not the first. -/
theorem c2_binder_overwrites :
    (∀ (parent : Nat → Option Nat) (isActor : Nat → Bool) fuel e
        (bound : Nat → Option Nat) actor,
        findActorAncestor parent isActor fuel e = some actor →
        isActor actor = true ∧
        linkTick parent isActor fuel [e] bound actor = some e) ∧
    (∀ (parent : Nat → Option Nat) (isActor : Nat → Bool) fuel e p,
        parent e = some p →
        findActorAncestor parent isActor (fuel + 1) e
          = (if isActor p then some p
             else findActorAncestor parent isActor fuel p)) := by
  constructor
  · intro parent isActor fuel e bound actor h
    refine ⟨findActorAncestor_isActor parent isActor fuel e actor h, ?_⟩
    unfold linkTick
    rw [List.foldl_cons, List.foldl_nil, h]
    simp
  · intro parent isActor fuel e p hp
    show (match parent e with
          | none => none
          | some q => if isActor q then some q
                      else findActorAncestor parent isActor fuel q)
        = (if isActor p then some p else findActorAncestor parent isActor fuel p)
    rw [hp]

/-- Witness for `c2_binder_overwrites`: in the example hierarchy, discovering
entity 1 under actor 0 overwrites a pre-existing binding `some 99`, and the
walk from entity 1 inspects the immediate parent 0 first. -/
theorem c2_binder_overwrites_witness :
    (isActorEx 0 = true ∧
      linkTick parentEx isActorEx 4 [1] (fun _ => some 99) 0 = some 1) ∧
    findActorAncestor parentEx isActorEx 4 1
      = (if isActorEx 0 then some 0 else findActorAncestor parentEx isActorEx 3 0) :=
  ⟨c2_binder_overwrites.1 parentEx isActorEx 4 1 (fun _ => some 99) 0 (by decide),
   c2_binder_overwrites.2 parentEx isActorEx 3 1 0 (by decide)⟩

/-- C3, counterexample: enemy already Punching, the bound clip reports
finished, squared distance 1 (inside attack range).  The claim's otherwise
branch predicts Punching via the distance rule, but the code transitions to
Idle without consulting the distance rules that tick. -/
theorem c3_finished_punch_cex :
    enemyTransition PlayerState.Punching (some ⟨[ClipId.punch]⟩) true 1
      = PlayerState.Idle ∧
    (1 : ℚ) < attack_range ^ 2 ∧
    PlayerState.Idle ≠ PlayerState.Punching := by
  refine ⟨?_, by norm_num [attack_range], by decide⟩
  rw [enemyTransition_punching]
  rfl

/-- C3, amended: while already Punching the enemy stays Punching for as long
as no finished-clip signal is observed (regardless of distance, and also when
no animation player is bound); when the bound clip reports finished the state
becomes Idle that tick, without consulting the distance rules.  When not
Punching the distance rules apply: distance below attack range yields
Punching (so squared distance 1 yields Punching even though it is below the
chase range too), else below chase range yields Running, else Idle. -/
theorem c3_enemy_priority :
    (∀ anim f dSq, enemyTransition PlayerState.Punching anim f dSq
        = (match anim with
           | some _ => if f then PlayerState.Idle else PlayerState.Punching
           | none => PlayerState.Punching)) ∧
    (∀ st anim f dSq, st ≠ PlayerState.Punching →
        enemyTransition st anim f dSq
          = (if dSq < attack_range ^ 2 then PlayerState.Punching
             else if dSq < chase_range ^ 2 then PlayerState.Running
             else PlayerState.Idle)) ∧
    (enemyTransition PlayerState.Idle none false 1 = PlayerState.Punching ∧
      (1 : ℚ) < chase_range ^ 2) ∧
    (∀ anim ticks, (∀ t ∈ ticks, t.1 = false) →
        iterEnemyTransition anim PlayerState.Punching ticks
          = PlayerState.Punching) := by
  refine ⟨enemyTransition_punching, enemyTransition_not_punching, ⟨?_, ?_⟩, ?_⟩
  · rw [enemyTransition_not_punching _ _ _ _ (by decide)]
    norm_num [attack_range]
  · norm_num [chase_range]
  · intro anim ticks
    induction ticks with
    | nil => intro _; rfl
    | cons t rest ih =>
        intro h
        have ht : t.1 = false := h t (List.mem_cons_self t rest)
        have hstay : enemyTransition PlayerState.Punching anim t.1 t.2
            = PlayerState.Punching := by
          rw [enemyTransition_punching, ht]
          cases anim <;> simp
        unfold iterEnemyTransition
        rw [hstay]
        exact ih (fun u hu => h u (List.mem_cons_of_mem t hu))

/-- Witness for `c3_enemy_priority`: concrete instances of each conjunct —
a finished Punching enemy at squared distance 5 goes Idle; a non-Punching
enemy at squared distance 100 is Running; an unbounded Punching enemy stays
Punching across two distance-varying ticks with no finished signal. -/
theorem c3_enemy_priority_witness :
    enemyTransition PlayerState.Punching (some ⟨[]⟩) true 5
      = (match (some ⟨[]⟩ : Option AnimPlayer) with
         | some _ => if true then PlayerState.Idle else PlayerState.Punching
         | none => PlayerState.Punching) ∧
    enemyTransition PlayerState.Running none false 100
      = (if (100 : ℚ) < attack_range ^ 2 then PlayerState.Punching
         else if (100 : ℚ) < chase_range ^ 2 then PlayerState.Running
         else PlayerState.Idle) ∧
    iterEnemyTransition none PlayerState.Punching [(false, 1), (false, 300)]
      = PlayerState.Punching :=
  ⟨c3_enemy_priority.1 (some ⟨[]⟩) true 5,
   c3_enemy_priority.2.1 PlayerState.Running none false 100 (by decide),
   c3_enemy_priority.2.2.2 none [(false, 1), (false, 300)] (by decide)⟩


/-- C1, counterexample: player in Punching with the punch clip playing and
reported finished, with pure forward movement input (key W) this tick.  The
claim predicts that the finished-clip exit runs before rules 1-4, so the tick
should end in Running via the decision table; in the code the exit lives in
the animation arm, evaluated after the decision table, so the tick ends in
Idle and the decision table only sees the actor on the next tick. -/
theorem c1_exit_ordering_cex :
    (playerTick ⟨true, false, false, false, false, false, MobileInput.zero⟩ 1
        ⟨⟨0, 0, 0⟩, ⟨0, 0, -1⟩, 5, PlayerState.Punching,
          some ⟨[ClipId.punch]⟩, true⟩).state = PlayerState.Idle ∧
    (playerDecision (inputIntent
        ⟨true, false, false, false, false, false, MobileInput.zero⟩)).1
      = PlayerState.Running ∧
    PlayerState.Idle ≠ PlayerState.Running := by
  refine ⟨?_, ?_, by decide⟩
  · norm_num [playerTick, inputIntent, playerStateArm, playerAnimApply,
      AnimPlayer.isPlaying, MobileInput.zero]
  · norm_num [playerDecision, inputIntent, MobileInput.zero]

/-- C1, amended: from Punching or Jumping the player tick either keeps the
state or exits to Idle, and it exits exactly when the bound animation player
reports the current clip playing and finished; the exit is evaluated in the
animation arm, after rules 1-4, so when it fires the tick ends in Idle
irrespective of the input of that tick, and the actor re-enters the decision
table (and can act on new input) on the next tick.  The enemy exit likewise
yields Idle that tick without consulting the distance rules. -/
theorem c1_exit_after_decision_table :
    (∀ i dt w, (w.state = PlayerState.Punching ∨ w.state = PlayerState.Jumping) →
        ((playerTick i dt w).state = w.state ∨
          (playerTick i dt w).state = PlayerState.Idle) ∧
        ((playerTick i dt w).state = PlayerState.Idle →
          w.finished = true ∧
          ∃ a, w.anim = some a ∧ a.isPlaying (playerClipOf w.state) = true)) ∧
    (∀ i dt w a, (w.state = PlayerState.Punching ∨ w.state = PlayerState.Jumping) →
        w.anim = some a → a.isPlaying (playerClipOf w.state) = true →
        w.finished = true →
        (playerTick i dt w).state = PlayerState.Idle) ∧
    (∀ i dt w, w.state = PlayerState.Idle →
        (inputIntent i).punch = false → (inputIntent i).jump = false →
        (inputIntent i).dirX ^ 2 + (inputIntent i).dirZ ^ 2 > 0 →
        (playerTick i dt w).state = PlayerState.Running) ∧
    (∀ (a : AnimPlayer) (dSq : ℚ),
        enemyTransition PlayerState.Punching (some a) true dSq
          = PlayerState.Idle) := by
  have harm : ∀ (inp : InputIntent) (st : PlayerState),
      st = PlayerState.Punching ∨ st = PlayerState.Jumping →
      (playerStateArm inp st).1 = st := by
    intro inp st h
    rcases h with h | h <;> subst h <;> rfl
  refine ⟨?_, ?_, ?_, ?_⟩
  · intro i dt w hst
    cases ha : w.anim with
    | none =>
        have hn := playerTick_anim_none i dt w ha
        rw [hn.1, harm _ _ hst]
        refine ⟨Or.inl rfl, ?_⟩
        intro hidle
        rcases hst with h | h <;> rw [h] at hidle <;> exact absurd hidle (by decide)
    | some a =>
        have hs := playerTick_anim_some i dt w a ha
        rw [hs.1, harm _ _ hst]
        refine ⟨?_, ?_⟩
        · exact playerAnimApply_state_or_idle w.state a w.finished
        · intro hidle
          have := (playerAnimApply_exit_iff w.state a w.finished hst).mp hidle
          exact ⟨this.2, a, rfl, this.1⟩
  · intro i dt w a hst ha hplay hfin
    have hs := playerTick_anim_some i dt w a ha
    rw [hs.1, harm _ _ hst]
    exact (playerAnimApply_exit_iff w.state a w.finished hst).mpr ⟨hplay, hfin⟩
  · intro i dt w hst h1 h2 h3
    have harm2 : (playerStateArm (inputIntent i) w.state).1 = PlayerState.Running := by
      rw [hst, playerStateArm_idle, playerDecision_moving _ h1 h2 h3]
    cases ha : w.anim with
    | none =>
        have hn := playerTick_anim_none i dt w ha
        rw [hn.1, harm2]
    | some a =>
        have hs := playerTick_anim_some i dt w a ha
        rw [hs.1, harm2]
        exact playerAnimApply_running_state a w.finished
  · intro a dSq
    rw [enemyTransition_punching]
    rfl

/-- Witness for `c1_exit_after_decision_table`: a concrete finished Punching
player ends the tick in Idle even with forward input pending, and a concrete
Idle player with forward input is Running after the next tick. -/
theorem c1_exit_after_decision_table_witness :
    (playerTick ⟨true, false, false, false, false, false, MobileInput.zero⟩ 1
        ⟨⟨0, 0, 0⟩, ⟨0, 0, -1⟩, 5, PlayerState.Punching,
          some ⟨[ClipId.punch]⟩, true⟩).state = PlayerState.Idle ∧
    (playerTick ⟨true, false, false, false, false, false, MobileInput.zero⟩ 1
        ⟨⟨0, 0, 0⟩, ⟨0, 0, -1⟩, 5, PlayerState.Idle, none, false⟩).state
      = PlayerState.Running ∧
    enemyTransition PlayerState.Punching (some ⟨[]⟩) true 1 = PlayerState.Idle :=
  ⟨c1_exit_after_decision_table.2.1
      ⟨true, false, false, false, false, false, MobileInput.zero⟩ 1
      ⟨⟨0, 0, 0⟩, ⟨0, 0, -1⟩, 5, PlayerState.Punching,
        some ⟨[ClipId.punch]⟩, true⟩ ⟨[ClipId.punch]⟩
      (Or.inl rfl) rfl (by decide) rfl,
   c1_exit_after_decision_table.2.2.1
      ⟨true, false, false, false, false, false, MobileInput.zero⟩ 1
      ⟨⟨0, 0, 0⟩, ⟨0, 0, -1⟩, 5, PlayerState.Idle, none, false⟩
      rfl (by norm_num [inputIntent, MobileInput.zero])
      (by norm_num [inputIntent, MobileInput.zero])
      (by norm_num [inputIntent, MobileInput.zero]),
   c1_exit_after_decision_table.2.2.2 ⟨[]⟩ 1⟩

/-- C6: for the player in the superstate Idle or Running, the decision table
applies exactly the priority punch, then jump, then movement, then Idle; the
punch branch also requests the one-shot sound; and from Running one tick of
all-zero, non-triggering input ends in Idle. -/
theorem c6_decision_priority :
    (∀ inp : InputIntent, inp.punch = true →
        playerDecision inp = (PlayerState.Punching, true)) ∧
    (∀ inp : InputIntent, inp.punch = false → inp.jump = true →
        playerDecision inp = (PlayerState.Jumping, false)) ∧
    (∀ inp : InputIntent, inp.punch = false → inp.jump = false →
        inp.dirX ^ 2 + inp.dirZ ^ 2 > 0 →
        playerDecision inp = (PlayerState.Running, false)) ∧
    (∀ inp : InputIntent, inp.punch = false → inp.jump = false →
        ¬ inp.dirX ^ 2 + inp.dirZ ^ 2 > 0 →
        playerDecision inp = (PlayerState.Idle, false)) ∧
    (∀ i dt w, (w.state = PlayerState.Idle ∨ w.state = PlayerState.Running) →
        (inputIntent i).punch = true → (playerTick i dt w).sound = true) ∧
    (∀ i dt w, w.state = PlayerState.Running →
        inputIntent i = ⟨0, 0, false, false⟩ →
        (playerTick i dt w).state = PlayerState.Idle) := by
  refine ⟨playerDecision_punch, playerDecision_jump, playerDecision_moving,
    playerDecision_still, ?_, ?_⟩
  · intro i dt w hst hp
    rw [playerTick_sound]
    have : playerStateArm (inputIntent i) w.state = playerDecision (inputIntent i) := by
      rcases hst with h | h <;> rw [h] <;> rfl
    rw [this, playerDecision_punch _ hp]
  · intro i dt w hst hint
    have harm2 : (playerStateArm (inputIntent i) w.state).1 = PlayerState.Idle := by
      rw [hst, playerStateArm_running, hint]
      rw [playerDecision_still]
      · rfl
      · rfl
      · norm_num
    cases ha : w.anim with
    | none =>
        have hn := playerTick_anim_none i dt w ha
        rw [hn.1, harm2]
    | some a =>
        have hs := playerTick_anim_some i dt w a ha
        rw [hs.1, harm2]
        exact playerAnimApply_idle_state a w.finished

/-- Witness for `c6_decision_priority`: one concrete input for each priority
branch, a concrete punching tick that requests the sound, and a concrete
Running-to-Idle convergence tick. -/
theorem c6_decision_priority_witness :
    playerDecision ⟨0, 0, false, true⟩ = (PlayerState.Punching, true) ∧
    playerDecision ⟨0, 0, true, false⟩ = (PlayerState.Jumping, false) ∧
    playerDecision ⟨1, 0, false, false⟩ = (PlayerState.Running, false) ∧
    playerDecision ⟨0, 0, false, false⟩ = (PlayerState.Idle, false) ∧
    (playerTick ⟨false, false, false, false, false, true, MobileInput.zero⟩ 1
        ⟨⟨0, 0, 0⟩, ⟨0, 0, -1⟩, 5, PlayerState.Idle, none, false⟩).sound = true ∧
    (playerTick ⟨false, false, false, false, false, false, MobileInput.zero⟩ 1
        ⟨⟨0, 0, 0⟩, ⟨0, 0, -1⟩, 5, PlayerState.Running, none, false⟩).state
      = PlayerState.Idle :=
  ⟨c6_decision_priority.1 ⟨0, 0, false, true⟩ rfl,
   c6_decision_priority.2.1 ⟨0, 0, true, false⟩ rfl rfl,
   c6_decision_priority.2.2.1 ⟨1, 0, false, false⟩ rfl rfl (by norm_num),
   c6_decision_priority.2.2.2.1 ⟨0, 0, false, false⟩ rfl rfl (by norm_num),
   c6_decision_priority.2.2.2.2.1
      ⟨false, false, false, false, false, true, MobileInput.zero⟩ 1
      ⟨⟨0, 0, 0⟩, ⟨0, 0, -1⟩, 5, PlayerState.Idle, none, false⟩
      (Or.inl rfl) rfl,
   c6_decision_priority.2.2.2.2.2
      ⟨false, false, false, false, false, false, MobileInput.zero⟩ 1
      ⟨⟨0, 0, 0⟩, ⟨0, 0, -1⟩, 5, PlayerState.Running, none, false⟩
      rfl (by norm_num [inputIntent, MobileInput.zero])⟩

theorem enemyTick_state (dt : ℚ) (p nrm : Vec3) (w : EnemySim) :
    (enemyTick dt (some p) nrm w).state
      = enemyTransition w.state w.anim w.finished (Vec3.distSq w.pos p) := by
  cases h : w.anim <;> simp only [enemyTick, h]

theorem enemyTick_pos (dt : ℚ) (p nrm : Vec3) (w : EnemySim) :
    (enemyTick dt (some p) nrm w).pos
      = (if enemyTransition w.state w.anim w.finished (Vec3.distSq w.pos p)
            = PlayerState.Running then
           if (horizTo w.pos p).lengthSq > 0 then
             w.pos + nrm.scale (w.speed * dt)
           else w.pos
         else w.pos) := by
  cases h : w.anim <;> simp only [enemyTick, h]

/-- C7: every fallible lookup degrades to a tick-local no-op — an absent
single player makes the enemy tick change nothing; a missing animation
binding skips the whole animation arm of the player tick (no request, no
binding change, and the state is exactly what the state-machine arm chose);
a failed input-cell lock leaves the input resource as it was; and added
animation players whose ancestor walk finds no actor change no binding.  All
model functions are total, so no case raises or terminates. -/
theorem c7_failed_lookups_noop :
    (∀ (dt : ℚ) (nrm : Vec3) (w : EnemySim),
        enemyTick dt none nrm w = ⟨w.pos, w.state, w.anim, none⟩) ∧
    (∀ i dt w, w.anim = none →
        (playerTick i dt w).req = none ∧ (playerTick i dt w).anim = none ∧
        (playerTick i dt w).state = (playerStateArm (inputIntent i) w.state).1) ∧
    (∀ prev, syncMobileInput none prev = prev) ∧
    (∀ (parent : Nat → Option Nat) (isActor : Nat → Bool) (fuel : Nat)
        (added : List Nat) (bound : Nat → Option Nat),
        (∀ e ∈ added, findActorAncestor parent isActor fuel e = none) →
        linkTick parent isActor fuel added bound = bound) := by
  refine ⟨fun dt nrm w => rfl, ?_, fun prev => rfl, ?_⟩
  · intro i dt w h
    have hn := playerTick_anim_none i dt w h
    exact ⟨hn.2.2, hn.2.1, hn.1⟩
  · intro parent isActor fuel added
    induction added with
    | nil => intro bound h; rfl
    | cons e rest ih =>
        intro bound h
        have he : findActorAncestor parent isActor fuel e = none :=
          h e (List.mem_cons_self e rest)
        unfold linkTick
        rw [List.foldl_cons]
        simp only [he]
        exact ih bound (fun u hu => h u (List.mem_cons_of_mem e hu))

/-- Witness for `c7_failed_lookups_noop`: each no-op at a concrete input —
an enemy tick without a player, a player tick without a binding, a failed
lock with a nonzero previous value, and an added entity with no actor
ancestor. -/
theorem c7_failed_lookups_noop_witness :
    enemyTick 1 none ⟨0, 0, 0⟩ ⟨⟨9, 0, 9⟩, 3.5, PlayerState.Running, none, false⟩
      = ⟨⟨9, 0, 9⟩, PlayerState.Running, none, none⟩ ∧
    ((playerTick ⟨false, false, false, false, false, false, MobileInput.zero⟩ 1
        ⟨⟨0, 0, 0⟩, ⟨0, 0, -1⟩, 5, PlayerState.Jumping, none, true⟩).req = none ∧
      (playerTick ⟨false, false, false, false, false, false, MobileInput.zero⟩ 1
        ⟨⟨0, 0, 0⟩, ⟨0, 0, -1⟩, 5, PlayerState.Jumping, none, true⟩).anim = none ∧
      (playerTick ⟨false, false, false, false, false, false, MobileInput.zero⟩ 1
        ⟨⟨0, 0, 0⟩, ⟨0, 0, -1⟩, 5, PlayerState.Jumping, none, true⟩).state
        = (playerStateArm
            (inputIntent ⟨false, false, false, false, false, false, MobileInput.zero⟩)
            PlayerState.Jumping).1) ∧
    syncMobileInput none ⟨2, 3, true, true⟩ = ⟨2, 3, true, true⟩ ∧
    linkTick parentEx isActorEx 4 [5] (fun _ => none) = (fun _ => none) :=
  ⟨c7_failed_lookups_noop.1 1 ⟨0, 0, 0⟩
      ⟨⟨9, 0, 9⟩, 3.5, PlayerState.Running, none, false⟩,
   c7_failed_lookups_noop.2.1
      ⟨false, false, false, false, false, false, MobileInput.zero⟩ 1
      ⟨⟨0, 0, 0⟩, ⟨0, 0, -1⟩, 5, PlayerState.Jumping, none, true⟩ rfl,
   c7_failed_lookups_noop.2.2.1 ⟨2, 3, true, true⟩,
   c7_failed_lookups_noop.2.2.2 parentEx isActorEx 4 [5] (fun _ => none)
      (by decide)⟩

/-- C9: per tick, the player position changes only while the post-decision
state is not Punching, and then exactly by the forward vector times forward
input times speed times elapsed time; the enemy position changes only while
its new state is Running, and then by the normalized horizontal vector toward
the player times speed times elapsed time (a horizontal displacement of
squared length `(speed * dt) ^ 2`); in particular a non-Punching enemy at
squared distance 400 (distance 20) becomes Idle and does not move. -/
theorem c9_movement_gating :
    (∀ i dt w, (playerStateArm (inputIntent i) w.state).1 = PlayerState.Punching →
        (playerTick i dt w).pos = w.pos) ∧
    (∀ i dt w, (playerStateArm (inputIntent i) w.state).1 ≠ PlayerState.Punching →
        (playerTick i dt w).pos
          = (if |(-(inputIntent i).dirZ)| > 0 then
               w.pos + w.fwd.scale (-(inputIntent i).dirZ * w.speed * dt)
             else w.pos)) ∧
    (∀ (dt : ℚ) (p nrm : Vec3) (w : EnemySim),
        enemyTransition w.state w.anim w.finished (Vec3.distSq w.pos p)
          ≠ PlayerState.Running →
        (enemyTick dt (some p) nrm w).pos = w.pos) ∧
    (∀ (dt : ℚ) (p nrm : Vec3) (w : EnemySim),
        enemyTransition w.state w.anim w.finished (Vec3.distSq w.pos p)
          = PlayerState.Running →
        IsNormalized (horizTo w.pos p) nrm →
        (enemyTick dt (some p) nrm w).pos = w.pos + nrm.scale (w.speed * dt) ∧
        ((enemyTick dt (some p) nrm w).pos - w.pos).lengthSq = (w.speed * dt) ^ 2 ∧
        ((enemyTick dt (some p) nrm w).pos).y = w.pos.y + 0) ∧
    (∀ (dt : ℚ) (p nrm : Vec3) (w : EnemySim),
        w.state ≠ PlayerState.Punching → Vec3.distSq w.pos p = 400 →
        (enemyTick dt (some p) nrm w).state = PlayerState.Idle ∧
        (enemyTick dt (some p) nrm w).pos = w.pos) := by
  refine ⟨?_, ?_, ?_, ?_, ?_⟩
  · intro i dt w h
    rw [playerTick_pos, if_neg (fun hne => hne h)]
  · intro i dt w h
    rw [playerTick_pos, if_pos h]
  · intro dt p nrm w h
    rw [enemyTick_pos, if_neg h]
  · intro dt p nrm w h hn
    obtain ⟨⟨c, hc, hnrm⟩, hunit⟩ := hn
    have h0 : (horizTo w.pos p).lengthSq ≠ 0 := by
      intro h0
      rw [hnrm, Vec3.lengthSq_scale, h0, mul_zero] at hunit
      exact absurd hunit (by norm_num)
    have hpos : (horizTo w.pos p).lengthSq > 0 :=
      lt_of_le_of_ne (Vec3.lengthSq_nonneg _) (Ne.symm h0)
    have hposeq : (enemyTick dt (some p) nrm w).pos
        = w.pos + nrm.scale (w.speed * dt) := by
      rw [enemyTick_pos, if_pos h, if_pos hpos]
    have hy : nrm.y = 0 := by
      rw [hnrm, Vec3.scale_y]
      show (0 : ℚ) * c = 0
      ring
    refine ⟨hposeq, ?_, ?_⟩
    · rw [hposeq, Vec3.add_sub_cancel_left, Vec3.lengthSq_scale, hunit, mul_one]
    · rw [hposeq, Vec3.add_y, Vec3.scale_y, hy]
      ring
  · intro dt p nrm w hst hd
    have htr : enemyTransition w.state w.anim w.finished (Vec3.distSq w.pos p)
        = PlayerState.Idle := by
      rw [enemyTransition_not_punching _ _ _ _ hst, hd]
      norm_num [attack_range, chase_range]
    refine ⟨?_, ?_⟩
    · rw [enemyTick_state, htr]
    · rw [enemyTick_pos, if_neg (by rw [htr]; exact fun hne => nomatch hne)]

/-- Witness for `c9_movement_gating`: a punching player stays put; a running
player advances by `fwd * input * speed * dt`; a Running enemy at `(0,0,0)`
seeking a player at `(3,0,4)` moves by the unit vector `(3/5, 0, 4/5)` times
`speed * dt`; and an Idle enemy at squared distance 400 stays put. -/
theorem c9_movement_gating_witness :
    (playerTick ⟨false, false, false, false, false, false, MobileInput.zero⟩ 1
        ⟨⟨0, 0, 0⟩, ⟨0, 0, -1⟩, 5, PlayerState.Punching, none, false⟩).pos
      = ⟨0, 0, 0⟩ ∧
    (playerTick ⟨true, false, false, false, false, false, MobileInput.zero⟩ 1
        ⟨⟨0, 0, 0⟩, ⟨0, 0, -1⟩, 5, PlayerState.Running, none, false⟩).pos
      = (if |(-(inputIntent ⟨true, false, false, false, false, false,
              MobileInput.zero⟩).dirZ)| > 0 then
           (⟨0, 0, 0⟩ : Vec3) + Vec3.scale ⟨0, 0, -1⟩
             (-(inputIntent ⟨true, false, false, false, false, false,
                 MobileInput.zero⟩).dirZ * 5 * 1)
         else ⟨0, 0, 0⟩) ∧
    (enemyTick 1 (some ⟨3, 0, 4⟩) ⟨3/5, 0, 4/5⟩
        ⟨⟨0, 0, 0⟩, 3.5, PlayerState.Idle, none, false⟩).pos
      = (⟨0, 0, 0⟩ : Vec3) + Vec3.scale ⟨3/5, 0, 4/5⟩ (3.5 * 1) ∧
    (enemyTick 1 (some ⟨12, 0, 16⟩) ⟨0, 0, 0⟩
        ⟨⟨0, 0, 0⟩, 3.5, PlayerState.Idle, none, false⟩).state
      = PlayerState.Idle ∧
    (enemyTick 1 (some ⟨12, 0, 16⟩) ⟨0, 0, 0⟩
        ⟨⟨0, 0, 0⟩, 3.5, PlayerState.Idle, none, false⟩).pos = ⟨0, 0, 0⟩ := by
  have hrun : enemyTransition PlayerState.Idle none false
      (Vec3.distSq ⟨0, 0, 0⟩ ⟨3, 0, 4⟩) = PlayerState.Running := by
    rw [enemyTransition_not_punching _ _ _ _ (by decide)]
    norm_num [attack_range, chase_range, Vec3.distSq, Vec3.lengthSq]
  have hseek := c9_movement_gating.2.2.2.1 1 ⟨3, 0, 4⟩ ⟨3/5, 0, 4/5⟩
      ⟨⟨0, 0, 0⟩, 3.5, PlayerState.Idle, none, false⟩ hrun
      ⟨⟨1/5, by norm_num, by
          show Vec3.mk _ _ _ = Vec3.mk _ _ _
          rw [Vec3.mk.injEq]
          norm_num [horizTo]⟩,
        by norm_num [Vec3.lengthSq]⟩
  have hfar := c9_movement_gating.2.2.2.2 1 ⟨12, 0, 16⟩ ⟨0, 0, 0⟩
      ⟨⟨0, 0, 0⟩, 3.5, PlayerState.Idle, none, false⟩ (by decide)
      (by norm_num [Vec3.distSq, Vec3.lengthSq])
  exact ⟨c9_movement_gating.1
      ⟨false, false, false, false, false, false, MobileInput.zero⟩ 1
      ⟨⟨0, 0, 0⟩, ⟨0, 0, -1⟩, 5, PlayerState.Punching, none, false⟩ rfl,
    c9_movement_gating.2.1
      ⟨true, false, false, false, false, false, MobileInput.zero⟩ 1
      ⟨⟨0, 0, 0⟩, ⟨0, 0, -1⟩, 5, PlayerState.Running, none, false⟩
      (by norm_num [playerStateArm, playerDecision, inputIntent, MobileInput.zero]
          decide),
    hseek.1, hfar.1, hfar.2⟩

theorem runPlayerAnim_cons_state (st : PlayerState) (a : AnimPlayer) (f : Bool)
    (fs : List Bool) :
    (runPlayerAnim st a (f :: fs)).1
      = (runPlayerAnim (playerAnimApply st a f).1 (playerAnimApply st a f).2.1 fs).1 := rfl

theorem runPlayerAnim_cons_count (st : PlayerState) (a : AnimPlayer) (f : Bool)
    (fs : List Bool) :
    (runPlayerAnim st a (f :: fs)).2.2
      = (if (playerAnimApply st a f).2.2.isSome then 1 else 0)
        + (runPlayerAnim (playerAnimApply st a f).1 (playerAnimApply st a f).2.1 fs).2.2 := rfl

theorem runPlayerAnim_idle_stable :
    ∀ (fs : List Bool) (a : AnimPlayer),
      (runPlayerAnim PlayerState.Idle a fs).1 = PlayerState.Idle := by
  intro fs
  induction fs with
  | nil => intro a; rfl
  | cons f fs ih =>
      intro a
      rw [runPlayerAnim_cons_state, playerAnimApply_idle_state]
      exact ih _

theorem runPlayerAnim_playing_count :
    ∀ (fs : List Bool) (st : PlayerState) (a : AnimPlayer),
      a.isPlaying (playerClipOf st) = true →
      (runPlayerAnim st a fs).1 = st →
      (runPlayerAnim st a fs).2.2 = 0 := by
  intro fs
  induction fs with
  | nil => intro st a _ _; rfl
  | cons f fs ih =>
      intro st a hp hfin
      have hpl := playerAnimApply_playing st a f hp
      rw [runPlayerAnim_cons_state, hpl.1] at hfin
      rw [runPlayerAnim_cons_count, hpl.1, hpl.2]
      simp only [Option.isSome_none, Bool.false_eq_true, if_false, Nat.zero_add]
      rcases playerAnimApply_state_or_idle st a f with h1 | h1
      · rw [h1] at hfin ⊢
        exact ih st a hp hfin
      · rw [h1] at hfin ⊢
        have hst := runPlayerAnim_idle_stable fs a
        rw [hst] at hfin
        subst hfin
        exact ih PlayerState.Idle a hp hst

theorem runPlayerAnim_count_le_one :
    ∀ (fs : List Bool) (st : PlayerState) (a : AnimPlayer),
      (runPlayerAnim st a fs).1 = st →
      (runPlayerAnim st a fs).2.2 ≤ 1 := by
  intro fs
  induction fs with
  | nil => intro st a _; exact Nat.zero_le 1
  | cons f fs ih =>
      intro st a hfin
      cases hp : a.isPlaying (playerClipOf st) with
      | true =>
          have hpl := playerAnimApply_playing st a f hp
          rw [runPlayerAnim_cons_state, hpl.1] at hfin
          rw [runPlayerAnim_cons_count, hpl.1, hpl.2]
          simp only [Option.isSome_none, Bool.false_eq_true, if_false, Nat.zero_add]
          rcases playerAnimApply_state_or_idle st a f with h1 | h1
          · rw [h1] at hfin ⊢
            exact ih st a hfin
          · rw [h1] at hfin ⊢
            have hst := runPlayerAnim_idle_stable fs a
            rw [hst] at hfin
            subst hfin
            exact ih PlayerState.Idle a hst
      | false =>
          have hnp := playerAnimApply_not_playing st a f hp
          rw [runPlayerAnim_cons_state, hnp.1, hnp.2.1] at hfin
          rw [runPlayerAnim_cons_count, hnp.1, hnp.2.1, hnp.2.2]
          simp only [if_pos]
          have hz := runPlayerAnim_playing_count fs st (a.play (playerClipOf st))
            (AnimPlayer.isPlaying_play_self a (playerClipOf st)) hfin
          rw [hz]

theorem playerAnimApply_req_clip (st : PlayerState) (a : AnimPlayer) (f : Bool)
    (r : PlayRequest) (h : (playerAnimApply st a f).2.2 = some r) :
    r.clip = playerClipOf st := by
  cases st with
  | Idle =>
      cases hp : a.isPlaying ClipId.idle <;> simp [playerAnimApply, hp] at h
      rw [← h]; rfl
  | Running =>
      cases hp : a.isPlaying ClipId.run <;> simp [playerAnimApply, hp] at h
      rw [← h]; rfl
  | Punching =>
      cases hp : a.isPlaying ClipId.punch <;> simp [playerAnimApply, hp] at h
      rw [← h]; rfl
  | Jumping =>
      cases hp : a.isPlaying ClipId.jump <;> simp [playerAnimApply, hp] at h
      rw [← h]; rfl

theorem enemyAnimApply_playing (st : PlayerState) (a : AnimPlayer)
    (h : a.isPlaying (enemyClipOf st) = true) :
    enemyAnimApply st a = (a, none) := by
  cases st <;> simp [enemyClipOf] at h <;> simp [enemyAnimApply, h]

theorem enemyAnimApply_not_playing (st : PlayerState) (a : AnimPlayer)
    (h : a.isPlaying (enemyClipOf st) = false) :
    (enemyAnimApply st a).1 = a.play (enemyClipOf st) ∧
    (enemyAnimApply st a).2.isSome = true := by
  cases st <;> simp [enemyClipOf] at h ⊢ <;> simp [enemyAnimApply, h]

theorem enemyAnimApply_req_clip (st : PlayerState) (a : AnimPlayer)
    (r : PlayRequest) (h : (enemyAnimApply st a).2 = some r) :
    r.clip = enemyClipOf st := by
  cases st with
  | Idle =>
      cases hp : a.isPlaying ClipId.idle <;> simp [enemyAnimApply, hp] at h
      rw [← h]; rfl
  | Running =>
      cases hp : a.isPlaying ClipId.run <;> simp [enemyAnimApply, hp] at h
      rw [← h]; rfl
  | Punching =>
      cases hp : a.isPlaying ClipId.punch <;> simp [enemyAnimApply, hp] at h
      rw [← h]; rfl
  | Jumping =>
      cases hp : a.isPlaying ClipId.idle <;> simp [enemyAnimApply, hp] at h
      rw [← h]; rfl

theorem runEnemyAnim_succ_count (st : PlayerState) (a : AnimPlayer) (n : Nat) :
    (runEnemyAnim st a (n + 1)).2
      = (if (enemyAnimApply st a).2.isSome then 1 else 0)
        + (runEnemyAnim st (enemyAnimApply st a).1 n).2 := rfl

theorem runEnemyAnim_playing_count :
    ∀ (n : Nat) (st : PlayerState) (a : AnimPlayer),
      a.isPlaying (enemyClipOf st) = true → (runEnemyAnim st a n).2 = 0 := by
  intro n
  induction n with
  | zero => intro st a _; rfl
  | succ n ih =>
      intro st a hp
      rw [runEnemyAnim_succ_count, enemyAnimApply_playing st a hp]
      simp only [Option.isSome_none, Bool.false_eq_true, if_false, Nat.zero_add]
      exact ih st a hp

theorem runEnemyAnim_count_le_one :
    ∀ (n : Nat) (st : PlayerState) (a : AnimPlayer),
      (runEnemyAnim st a n).2 ≤ 1 := by
  intro n st a
  cases n with
  | zero => exact Nat.zero_le 1
  | succ n =>
      cases hp : a.isPlaying (enemyClipOf st) with
      | true =>
          rw [runEnemyAnim_playing_count (n + 1) st a hp]
          exact Nat.zero_le 1
      | false =>
          have hnp := enemyAnimApply_not_playing st a hp
          rw [runEnemyAnim_succ_count, hnp.1, hnp.2]
          simp only [if_pos]
          rw [runEnemyAnim_playing_count n st (a.play (enemyClipOf st))
            (AnimPlayer.isPlaying_play_self a (enemyClipOf st))]

/-- C5: both animation arms are idempotent — a play request is issued only
when the bound player is not already playing the requested clip — and over
any run of consecutive ticks during which the actor remains in the same state
without interruption, at most one play request is issued (the first tick
inserts the clip into the active set, and membership suppresses every later
request). -/
theorem c5_idempotent_requests :
    (∀ st a f r, (playerAnimApply st a f).2.2 = some r →
        a.isPlaying r.clip = false) ∧
    (∀ st a r, (enemyAnimApply st a).2 = some r →
        a.isPlaying r.clip = false) ∧
    (∀ st a fs, (runPlayerAnim st a fs).1 = st →
        (runPlayerAnim st a fs).2.2 ≤ 1) ∧
    (∀ st a n, (runEnemyAnim st a n).2 ≤ 1) := by
  refine ⟨?_, ?_, ?_, ?_⟩
  · intro st a f r h
    rw [playerAnimApply_req_clip st a f r h]
    cases hp : a.isPlaying (playerClipOf st) with
    | false => rfl
    | true =>
        have := (playerAnimApply_playing st a f hp).2
        rw [this] at h
        exact absurd h (by simp)
  · intro st a r h
    rw [enemyAnimApply_req_clip st a r h]
    cases hp : a.isPlaying (enemyClipOf st) with
    | false => rfl
    | true =>
        have := enemyAnimApply_playing st a hp
        rw [this] at h
        exact absurd h (by simp)
  · intro st a fs h
    exact runPlayerAnim_count_le_one fs st a h
  · intro st a n
    exact runEnemyAnim_count_le_one n st a

/-- Witness for `c5_idempotent_requests`: a fresh player in Idle issues the
idle request only because nothing was playing; a fresh enemy in Jumping
issues the idle request (its Jumping fallback clip); three consecutive
Running player ticks issue at most one request, as do three enemy ticks in
Punching. -/
theorem c5_idempotent_requests_witness :
    AnimPlayer.isPlaying ⟨[]⟩ (⟨ClipId.idle, true, 1⟩ : PlayRequest).clip = false ∧
    AnimPlayer.isPlaying ⟨[]⟩ (⟨ClipId.idle, true, 1⟩ : PlayRequest).clip = false ∧
    (runPlayerAnim PlayerState.Running ⟨[]⟩ [false, false, false]).2.2 ≤ 1 ∧
    (runEnemyAnim PlayerState.Punching ⟨[]⟩ 3).2 ≤ 1 :=
  ⟨c5_idempotent_requests.1 PlayerState.Idle ⟨[]⟩ false ⟨ClipId.idle, true, 1⟩ rfl,
   c5_idempotent_requests.2.1 PlayerState.Jumping ⟨[]⟩ ⟨ClipId.idle, true, 1⟩ rfl,
   c5_idempotent_requests.2.2.1 PlayerState.Running ⟨[]⟩ [false, false, false] rfl,
   c5_idempotent_requests.2.2.2 PlayerState.Punching ⟨[]⟩ 3⟩
